import Mathlib

/-!
Verification of the phink fuzzing engine against its specification.

The Rust sources under `src/` are shallowly embedded: machine bytes become
`Nat` (each byte is `< 256` where it matters), Rust `Result` becomes an
explicit two-constructor inductive, and the stateful blockchain runtime
(pallet-contracts `bare_call`) — which is external to the repository — is
an explicit state-passing function parameter `BareCall`.
-/

set_option maxRecDepth 4096

namespace Phink

/-- A byte of a payload, selector or debug buffer (`u8`, kept as `Nat`). -/
abbrev Byte := Nat

/-- A 4-byte message selector (`payload.rs` declares `Selector = [u8; 4]`;
only its use sites are under `src/`, where it is compared densely and used
as a 4-byte payload). We model it as a byte list of length 4. -/
abbrev Selector := List Byte

/-- Embeds `sp_runtime::ModuleError` as matched in `bug.rs`: the `message` field is
an `Option<&str>`. -/
structure ModuleError where
  index : Nat
  errbytes : List Byte
  message : Option String
deriving DecidableEq

/-- Embeds `sp_runtime::DispatchError`, restricted to the constructors the code
distinguishes: the `Module` variant (matched in `is_contract_trapped`) and
the remaining variants collapsed into shapes that are "not Module". -/
inductive DispatchError where
  | Module (m : ModuleError)
  | Other (s : String)
  | BadOrigin
  | CannotLookup
deriving DecidableEq

/-- Embeds `pallet_contracts::ExecReturnValue`: the success value of a dispatched
contract call. `data` may itself scale-encode a contract-level `Err`. -/
structure ExecReturnValue where
  flags : Nat
  data : List Byte
deriving DecidableEq

/-- Rust `Result<ExecReturnValue, DispatchError>`: the `result` field of a
`FullContractResponse` (`remote.rs`). -/
inductive CallResult where
  | ok (value : ExecReturnValue)
  | err (error : DispatchError)
deriving DecidableEq

/-- Rust `Result::is_err`. -/
def CallResult.is_err : CallResult → Bool
  | .ok _ => false
  | .err _ => true

/-- Embeds `FullContractResponse = ContractResult<Result<ExecReturnValue,
DispatchError>, u128, EventRecord>` (`remote.rs`): dispatch result, gas and
deposit accounting, the debug-message byte buffer and collected events. -/
structure FullContractResponse where
  result : CallResult
  gas_consumed : Nat
  storage_deposit : Nat
  debug_message : List Byte
  events : List Nat
deriving DecidableEq

/-- Embeds `ContractBridge` (`remote.rs`): genesis storage snapshot, instantiated
contract address and raw metadata. The storage type `S` is abstract; the
account id is kept as the broadcast byte. -/
structure ContractBridge (S : Type) where
  genesis : S
  contract_address : Nat
  json_specs : String

/-- The semantics of `pallet_contracts::Contracts::bare_call` — external to
this repository — as an explicit state transformer: given the ambient
externalities state, the caller account byte, the destination address, the
transferred value and the payload, it produces a response and the mutated
state. -/
abbrev BareCall (S : Type) :=
  S → Nat → Nat → Nat → List Byte → FullContractResponse × S

/-- Embeds `ContractBridge::call` (`remote.rs` lines 133–156): builds the caller
account from the origin byte and invokes `bare_call` on the instantiated
contract address with the given transferred value and payload. In Rust it
consumes `self` by value, so each call operates on a clone of the bridge;
the ambient externalities state is threaded explicitly here. -/
def ContractBridge.call {S : Type} (bare : BareCall S) (b : ContractBridge S)
    (s : S) (payload : List Byte) (who : Nat) (transfer_value : Nat) :
    FullContractResponse × S :=
  bare s who b.contract_address transfer_value payload

/-- Embeds `Message` (from `parser.rs`, whose fields are fixed by its use sites in
`fuzz.rs` and `bug.rs`): payload bytes, payable flag, decoded value and
caller origin byte. -/
structure Message where
  payload : List Byte
  is_payable : Bool
  value_token : Nat
  origin : Nat
deriving DecidableEq

instance : Inhabited Message := ⟨⟨[], false, 0, 0⟩⟩

/-- Embeds `OneInput` (from `parser.rs`): the ordered decoded message list and the
shared origin byte. -/
structure OneInput where
  messages : List Message
  origin : Nat
deriving DecidableEq

/-- Embeds `BugManager` (`bug.rs`): the bridge and the list of invariant
selectors. The `Configuration` field only parameterizes `bare_call`
(gas/deposit limits) and is absorbed into the `BareCall` parameter. -/
structure BugManager (S : Type) where
  contract_bridge : ContractBridge S
  invariant_selectors : List Selector

/-- Embeds `BugManager::contains_selector` (`bug.rs`). -/
def BugManager.contains_selector {S : Type} (bm : BugManager S)
    (selector : Selector) : Bool :=
  bm.invariant_selectors.contains selector

/-- Embeds `BugManager::is_contract_trapped` (`bug.rs` lines 123–135): true iff
the response's `result` is `Err(DispatchError::Module(..))` whose `message`
is `Some("ContractTrapped")`. -/
def is_contract_trapped (contract_response : FullContractResponse) : Bool :=
  match contract_response.result with
  | .err (.Module m) => m.message == some "ContractTrapped"
  | _ => false

/-- Embeds `FailedInvariantTrace = (Selector, FullContractResponse)` (`bug.rs`). -/
abbrev FailedInvariantTrace := Selector × FullContractResponse

/-- Rust `Result<(), FailedInvariantTrace>`. -/
inductive InvariantOutcome where
  | ok
  | err (t : FailedInvariantTrace)
deriving DecidableEq

/-- The loop body of `BugManager::are_invariants_passing` (`bug.rs` lines
104–121), recursing over the remaining invariant selectors while threading
the ambient externalities state. Alongside the Rust return value we record
the trace of calls actually performed, so the theorems can speak about
"each invariant call". Each call passes the selector bytes as payload, the
given origin, and transferred value `0`; the loop returns the first call
whose dispatch-level result `is_err`. -/
def invariant_calls {S : Type} (bare : BareCall S) (bm : BugManager S)
    (origin : Nat) :
    List Selector → S → InvariantOutcome × List (Selector × FullContractResponse) × S
  | [], s => (.ok, [], s)
  | invariant :: rest, s =>
    let call := ContractBridge.call bare bm.contract_bridge s invariant origin 0
    if call.1.result.is_err then
      (.err (invariant, call.1), [(invariant, call.1)], call.2)
    else
      let next := invariant_calls bare bm origin rest call.2
      (next.1, (invariant, call.1) :: next.2.1, next.2.2)

/-- Embeds `BugManager::are_invariants_passing(origin)` (`bug.rs` lines 104–121):
iterate over `invariant_selectors`, calling each via a clone of the bridge
with value `0` from `origin`; return `Err` at the first dispatch-level
error, else `Ok(())`. -/
def are_invariants_passing {S : Type} (bare : BareCall S) (bm : BugManager S)
    (origin : Nat) (s : S) :
    InvariantOutcome × List (Selector × FullContractResponse) × S :=
  invariant_calls bare bm origin bm.invariant_selectors s

/-- Byte is an ASCII decimal digit. -/
def isDigitByte (b : Byte) : Bool := 48 ≤ b && b ≤ 57

/-- The scanning loop of the coverage stripper: the flag is true while
inside the digit run that follows a `COV=` occurrence. The bytes 67, 79,
86, 61 are the ASCII codes of `C`, `O`, `V`, `=`. -/
def strip_cov_go : Bool → List Byte → List Byte
  | _, 67 :: 79 :: 86 :: 61 :: rest => strip_cov_go true rest
  | true, b :: rest =>
      if isDigitByte b then strip_cov_go true rest
      else b :: strip_cov_go false rest
  | false, b :: rest => b :: strip_cov_go false rest
  | _, [] => []

/-- Modelled from the spec: `Coverage::remove_cov_from_trace` lives in
`cover/coverage.rs`, which is not under `src/`; §4.6 of the spec says it
strips all `COV=…` substrings (the marker and the digits that follow it)
from a debug buffer for human-readable reporting. -/
def remove_cov_from_trace (buf : List Byte) : List Byte :=
  strip_cov_go false buf

/-- What `BugManager::display_trap` (`bug.rs` lines 45–73) prints before
terminating: the coverage-stripped debug stacktrace, and the pretty-printed
one-message `OneInput` built from the message it was handed. The Rust
function ends in `panic!`, so producing a `TrapReport` models process
termination. -/
structure TrapReport where
  stacktrace : List Byte
  message : Message
  printed : OneInput
deriving DecidableEq

/-- Embeds `BugManager::display_trap` (`bug.rs` lines 45–73): strip coverage from
the response's debug buffer, pretty-print a `OneInput` holding exactly the
message it was given, then `panic!`. -/
def display_trap (message : Message) (response : FullContractResponse) :
    TrapReport :=
  { stacktrace := remove_cov_from_trace response.debug_message
    message := message
    printed := { messages := [message], origin := message.origin } }

/-- The process-terminating finding of one harness iteration: a trap report
or a failed invariant (both end in `panic!` in the Rust code). -/
inductive Finding where
  | trap (report : TrapReport)
  | invariant (t : FailedInvariantTrace)
deriving DecidableEq

/-- Embeds `check_invariants` (`fuzz.rs` lines 285–307): scan the responses for
trapped ones — the first trapped response triggers `display_trap`, which is
handed `decoded_msgs.messages[0]` (the first message of the input, modelled
with `headD` since the harness only reaches this point with a nonempty
list) and terminates the process. With no trapped response,
`are_invariants_passing(origin)` runs inside the same externalities; an
`Err` triggers `display_invariant` and termination. -/
def check_invariants {S : Type} (bare : BareCall S) (bm : BugManager S)
    (all_msg_responses : List FullContractResponse) (decoded_msgs : OneInput)
    (s : S) :
    Option Finding × List (Selector × FullContractResponse) × S :=
  match all_msg_responses.filter (fun r => is_contract_trapped r) with
  | r :: _ =>
      (some (.trap (display_trap (decoded_msgs.messages.headD default) r)), [], s)
  | [] =>
      match are_invariants_passing bare bm decoded_msgs.origin s with
      | (.err t, trace, s2) => (some (.invariant t), trace, s2)
      | (.ok, trace, s2) => (none, trace, s2)

/-- Embeds `Fuzzer::should_stop_now` (`fuzz.rs` lines 109–120): stop when the
decoded message list is empty, or when some message's payload starts with 4
bytes equal to an invariant selector (`payload.get(..4)` is `Some` exactly
when the payload has at least 4 bytes). -/
def should_stop_now {S : Type} (bm : BugManager S) (decoded_msgs : OneInput) :
    Bool :=
  decoded_msgs.messages.isEmpty ||
    decoded_msgs.messages.any (fun payload =>
      if 4 ≤ payload.payload.length then
        bm.contains_selector (payload.payload.take 4)
      else false)

/-- Embeds `Fuzzer` (`fuzz.rs`): the bridge plus a configuration (the latter only
parameterizes `bare_call` and is absorbed into the `BareCall` parameter). -/
structure Fuzzer (S : Type) where
  setup : ContractBridge S

/-- Modelled from the spec: `InputCoverage` lives in `cover/coverage.rs`,
which is not under `src/`; per §4.6 it accumulates the beacon-bearing debug
buffers of one input's calls (`add_cov` appends a call's buffer) and
`save` appends the accumulated record to the disk-backed coverage file. -/
abbrev InputCoverage := List (List Byte)

/-- The disk-backed coverage file: one appended record per saved input. -/
abbrev CovFile := List InputCoverage

/-- The loop body of `execute_messages` (`fuzz.rs` lines 254–283): for each
decoded message in order, call the contract through a clone of the bridge
with `transfer_value = if is_payable then value_token else 0`, push the
response and record its debug buffer in the input coverage, threading the
ambient externalities state. -/
def execute_messages_go {S : Type} (bare : BareCall S) (client : Fuzzer S)
    (origin : Nat) :
    List Message → S → List FullContractResponse × S × InputCoverage
  | [], s => ([], s, [])
  | message :: rest, s =>
    let transfer_value := if message.is_payable then message.value_token else 0
    let r := ContractBridge.call bare client.setup s message.payload origin
      transfer_value
    let next := execute_messages_go bare client origin rest r.2
    (r.1 :: next.1, next.2.1, r.1.debug_message :: next.2.2)

/-- Embeds `execute_messages` (`fuzz.rs` lines 254–283). -/
def execute_messages {S : Type} (bare : BareCall S) (client : Fuzzer S)
    (decoded_msgs : OneInput) (chain : S) :
    List FullContractResponse × S × InputCoverage :=
  execute_messages_go bare client decoded_msgs.origin decoded_msgs.messages chain

/-- The observable outcome of one `Fuzzer::harness` iteration: the call
responses, the trace of invariant calls performed, the finding (if any, the
process terminates), the coverage file after the iteration and the final
externalities state of the per-iteration fork. -/
structure HarnessOut (S : Type) where
  responses : List FullContractResponse
  invariant_trace : List (Selector × FullContractResponse)
  finding : Option Finding
  cov_file : CovFile
  chain : S

/-- Embeds `Fuzzer::harness` (`fuzz.rs` lines 141–184): decode the input, return
early if `should_stop_now`; otherwise fork a fresh `BasicExternalities`
from a clone of `client.setup.genesis`, set the block-1 timestamp, run
`execute_messages`, run `check_invariants` inside the same fork, and save
the recorded input coverage to the coverage file. The decoder `parse_input`
(`parser.rs`) and the timestamp setter are passed as parameters. -/
def harness {S : Type} (bare : BareCall S) (set_timestamp : S → S)
    (parse_input : List Byte → OneInput) (client : Fuzzer S)
    (bug_manager : BugManager S) (cov_file : CovFile) (input : List Byte) :
    HarnessOut S :=
  let decoded_msgs := parse_input input
  if should_stop_now bug_manager decoded_msgs then
    { responses := []
      invariant_trace := []
      finding := none
      cov_file := cov_file
      chain := client.setup.genesis }
  else
    let chain0 := set_timestamp client.setup.genesis
    let executed := execute_messages bare client decoded_msgs chain0
    let checked := check_invariants bare bug_manager executed.1 decoded_msgs
      executed.2.1
    { responses := executed.1
      invariant_trace := checked.2.1
      finding := checked.1
      cov_file := cov_file ++ [executed.2.2]
      chain := checked.2.2 }

/-- The driver loop of `Fuzzer::fuzz` (`fuzz.rs` lines 128–139): each
iteration runs `harness` on a clone of the fuzzer and a clone of the
original bug manager; a finding is a `panic!` that terminates the process,
so no later input runs. The coverage file is the only state carried across
iterations. -/
def fuzz_iterations {S : Type} (bare : BareCall S) (set_timestamp : S → S)
    (parse_input : List Byte → OneInput) (client : Fuzzer S)
    (bug_manager : BugManager S) (cov_file : CovFile) :
    List (List Byte) → List (HarnessOut S)
  | [] => []
  | input :: rest =>
    let out := harness bare set_timestamp parse_input client bug_manager
      cov_file input
    if out.finding.isSome then [out]
    else
      out :: fuzz_iterations bare set_timestamp parse_input client bug_manager
        out.cov_file rest

/-! ## Instrumenter (`instrument.rs`)

The contract source is embedded as a mini-AST: a file is a list of
functions, a function body is a block, and a statement is either a plain
statement, a statement containing nested blocks (one block, or an
if/else with two), or a coverage beacon
`ink::env::debug_println!("COV={}", arg)`. Every statement carries the
source line of its span start. -/

mutual
inductive Stmt where
  | simple (line : Nat) (text : String)
  | blockStmt (line : Nat) (body : Block)
  | ifElse (line : Nat) (thenBranch : Block) (elseBranch : Block)
  | beacon (line : Nat) (arg : Nat)
inductive Block where
  | nil
  | cons (s : Stmt) (rest : Block)
end

/-- Embeds `stmt.span().start().line` of the embedded statement. -/
def Stmt.line_of : Stmt → Nat
  | .simple l _ => l
  | .blockStmt l _ => l
  | .ifElse l _ _ => l
  | .beacon l _ => l

/-- The statements of a block as a list. -/
def Block.toList : Block → List Stmt
  | .nil => []
  | .cons s rest => s :: rest.toList

mutual
/-- The recursion of `syn::visit_mut` under `ContractCovUpdater`
(`instrument.rs` lines 272–291): `visit_stmt_mut` descends into the nested
blocks of a statement (the visitor overrides only `visit_block_mut`). -/
def visit_stmt : Stmt → Stmt
  | .simple l text => .simple l text
  | .beacon l arg => .beacon l arg
  | .blockStmt l body => .blockStmt l (visit_block body)
  | .ifElse l thenBranch elseBranch =>
      .ifElse l (visit_block thenBranch) (visit_block elseBranch)
/-- Embeds `ContractCovUpdater::visit_block_mut` (`instrument.rs` lines 273–291):
for each statement of the block in order, first push a synthetic beacon
whose argument literal is the statement's span start line (the inserted
statement itself has the synthetic call-site span, line 0 here), then visit
the statement recursively, then push it. -/
def visit_block : Block → Block
  | .nil => .nil
  | .cons s rest =>
      .cons (.beacon 0 s.line_of) (.cons (visit_stmt s) (visit_block rest))
end

/-- A top-level `fn` item of the source file (`syn::File` items; the
visitor instruments the blocks inside items). -/
structure FnItem where
  fname : String
  body : Block

/-- A parsed source file. -/
structure SrcFile where
  items : List FnItem

/-- Embeds `visitor.visit_file_mut(&mut ast)` (`instrument.rs` line 245) under
`ContractCovUpdater`: every block of every item is instrumented. -/
def visit_file (f : SrcFile) : SrcFile :=
  ⟨f.items.map (fun it => ⟨it.fname, visit_block it.body⟩)⟩

mutual
/-- The source text of one statement as written back by `save_and_format`
(`quote!(#ast).to_string()` followed by `rustfmt`): string-literal tokens
are preserved verbatim, so a beacon prints as
`ink::env::debug_println!("COV={}", arg);` with the argument outside the
literal. -/
def render_stmt : Stmt → String
  | .simple _ text => text
  | .beacon _ arg =>
      "ink::env::debug_println!(\x22COV=\x7b\x7d\x22, " ++ toString arg ++ ");"
  | .blockStmt _ body => "\x7b " ++ render_block body ++ "\x7d"
  | .ifElse _ thenBranch elseBranch =>
      "if c \x7b " ++ render_block thenBranch ++ "\x7d else \x7b " ++
        render_block elseBranch ++ "\x7d"
def render_block : Block → String
  | .nil => ""
  | .cons s rest => render_stmt s ++ " " ++ render_block rest
end

/-- Rendering of a whole file. -/
def render_file (f : SrcFile) : String :=
  String.intercalate "\n"
    (f.items.map (fun it => "fn " ++ it.fname ++ "() \x7b " ++
      render_block it.body ++ "\x7d"))

/-- Regex word character (`\w`): letters, digits, underscore. -/
def isWordChar (c : Char) : Bool := c.isAlphanum || c == '_'

/-- The literal part of the `already_instrumented` regex up to the digits:
`ink::env::debug_println!("COV=`. -/
def covNeedle : List Char := "ink::env::debug_println!(\x22COV=".toList

/-- Drop an expected leading character sequence, or fail. -/
def chopLead : List Char → List Char → Option (List Char)
  | [], rest => some rest
  | _ :: _, [] => none
  | p :: ps, c :: cs => if p == c then chopLead ps cs else none

/-- Does the regex `ink::env::debug_println!\("COV=\d+"\)` match at the
head of the character list: the literal needle, then one or more decimal
digits, then `")`. -/
def covMatchTail (cs : List Char) : Bool :=
  match chopLead covNeedle cs with
  | none => false
  | some rest =>
      match rest.takeWhile Char.isDigit, rest.dropWhile Char.isDigit with
      | _ :: _, '\x22' :: ')' :: _ => true
      | _, _ => false

/-- Embeds `\b` before the needle's `i`: start of input or a non-word character. -/
def boundaryBefore : Option Char → Bool
  | none => true
  | some p => !(isWordChar p)

/-- Scan all positions, keeping the previous character for the word
boundary. -/
def covScan : Option Char → List Char → Bool
  | _, [] => false
  | prev, c :: cs =>
      (boundaryBefore prev && covMatchTail (c :: cs)) || covScan (some c) cs

/-- Embeds `InstrumenterEngine::already_instrumented` (`instrument.rs` lines
257–263): true iff the regex `\bink::env::debug_println!\("COV=\d+"\)`
matches somewhere in the code. -/
def already_instrumented (code : String) : Bool :=
  covScan none code.toList

/-- A directory tree: relative file name to contents. -/
structure FileTree where
  files : List (String × String)
deriving DecidableEq

/-- Embeds `fs::read_to_string` within a tree. -/
def FileTree.read (t : FileTree) (name : String) : Option String :=
  (t.files.find? (fun p => p.1 == name)).map Prod.snd

/-- Embeds `File::create` + `write_all` within a tree: the new binding shadows
any previous one (`read` returns the first match). -/
def FileTree.write (t : FileTree) (name : String) (content : String) :
    FileTree :=
  ⟨(name, content) :: t.files⟩

/-- The filesystem visible to the instrumenter: directories mapped to
their trees. -/
structure World where
  dirs : List (String × FileTree)

/-- Look a directory up. -/
def World.lookup (w : World) (d : String) : Option FileTree :=
  (w.dirs.find? (fun p => p.1 == d)).map Prod.snd

/-- Create or overwrite a directory tree: the new binding shadows any
previous one (`lookup` returns the first match). -/
def World.setDir (w : World) (d : String) (t : FileTree) : World :=
  ⟨(d, t) :: w.dirs⟩

/-- Embeds `InstrumenterEngine` (`instrument.rs` lines 29–32). -/
structure InstrumenterEngine where
  contract_dir : String
deriving DecidableEq

/-- The name `/tmp/ink_fuzzed_<suffix>` built by `fork` (`instrument.rs`
line 182) from the random 5-character suffix, which is a parameter here. -/
def fork_dir_name (suffix : String) : String := "/tmp/ink_fuzzed_" ++ suffix

/-- Embeds `InstrumenterEngine::fork` (`instrument.rs` lines 174–215): create the
fresh `/tmp/ink_fuzzed_<suffix>` directory and copy the whole contract
tree into it, preserving structure; fails when the source tree cannot be
walked. -/
def InstrumenterEngine.fork (e : InstrumenterEngine) (suffix : String)
    (w : World) : Option (String × World) :=
  match w.lookup e.contract_dir with
  | none => none
  | some tree =>
      some (fork_dir_name suffix, w.setDir (fork_dir_name suffix) tree)

/-- Embeds `InstrumenterEngine::instrument` (`instrument.rs` lines 218–238): fork
the tree, read the fork's `lib.rs`, reassign `self.contract_dir` to the
fork, and only then test `already_instrumented` — refusing with an error
after the fork is fully populated and the engine redirected. On the happy
path, parse (the external `syn` parser is the `parse_file` parameter),
visit with `ContractCovUpdater`, and write the rendered result back to the
fork's `lib.rs`. Returns the Rust `Result` together with the engine (which
Rust mutates through `&mut self`) and the filesystem. -/
def InstrumenterEngine.instrument (parse_file : String → SrcFile)
    (suffix : String) (e : InstrumenterEngine) (w : World) :
    Except String InstrumenterEngine × InstrumenterEngine × World :=
  match e.fork suffix w with
  | none => (.error "🙅 Failed to fork", e, w)
  | some (new_working_dir, w1) =>
    match (w1.lookup new_working_dir).bind (fun t => t.read "lib.rs") with
    | none => (.error "🙅 Failed to read lib.rs", e, w1)
    | some code =>
      let e1 : InstrumenterEngine := ⟨new_working_dir⟩
      if already_instrumented code then
        (.error "🙅 Code already instrumented", e1, w1)
      else
        let modified_code := render_file (visit_file (parse_file code))
        let w2 := w1.setDir new_working_dir
          (((w1.lookup new_working_dir).getD ⟨[]⟩).write "lib.rs"
            modified_code)
        (.ok e1, e1, w2)

/-! ## Corpus and dictionary initialization (`fuzz.rs`) -/

/-- One uppercase hexadecimal digit (`{:02X}` formatting). -/
def hexDigitU (n : Nat) : Char := "0123456789ABCDEF".toList.getD n '0'

/-- Embeds `\xHH` for one byte, as produced by `write!(acc, "\\x{:02X}", b)`
(`fuzz.rs` lines 246–248). -/
def byteHexU (b : Byte) : String :=
  String.mk ['\x5c', 'x', hexDigitU (b / 16 % 16), hexDigitU (b % 16)]

/-- Embeds `write_dict_entry` (`fuzz.rs` lines 244–252): the selector's bytes
folded into `\xHH` renderings and wrapped in double quotes, one line. -/
def write_dict_entry (selector : Selector) : String :=
  "\x22" ++ selector.foldl (fun acc b => acc ++ byteHexU b) "" ++ "\x22"

/-- Embeds `write_dict_header` (`fuzz.rs` lines 229–237): two `#` comment lines
and the framing-delimiter declaration (eight `\x2A` asterisks). -/
def write_dict_header : List String :=
  ["# Dictionary file for selectors",
   "# Lines starting with \x27#\x27 and empty lines are ignored.",
   "delimiter=\x22********\x22"]

/-- Embeds `write_corpus_file` (`fuzz.rs` lines 239–242): the seed file
`selector_{i}.bin` whose contents are the selector bytes. -/
def write_corpus_file (index : Nat) (selector : Selector) :
    String × List Byte :=
  ("selector_" ++ toString index ++ ".bin", selector)

/-- Embeds `Fuzzer::build_corpus_and_dict` (`fuzz.rs` lines 95–107): write one
corpus file per given selector and the dictionary file, whose lines are
the header followed by one entry per selector in order. -/
def build_corpus_and_dict (selectors : List Selector) :
    List (String × List Byte) × List String :=
  (selectors.enum.map (fun p => write_corpus_file p.1 p.2),
   write_dict_header ++ selectors.map write_dict_entry)

/-- The fuzzable selectors computed by `init_fuzzer` (`fuzz.rs` lines
209–212): all declared selectors minus the invariant selectors. -/
def selectors_without_invariants (selectors invariants : List Selector) :
    List Selector :=
  selectors.filter (fun s => !(invariants.contains s))

/-- The files written by `init_fuzzer` (`fuzz.rs` lines 198–227): the
corpus seeds and the dictionary built from the fuzzable selectors. -/
def init_fuzzer_files (selectors invariants : List Selector) :
    List (String × List Byte) × List String :=
  build_corpus_and_dict (selectors_without_invariants selectors invariants)

/-! ## Theorems -/

/-- C6: for every contract response, `is_contract_trapped(response)`
returns true if and only if `response.result` is a module dispatch error
whose message equals the literal `"ContractTrapped"`; any other dispatch
error, and any Ok result, yields false. -/
theorem is_contract_trapped_iff (r : FullContractResponse) :
    is_contract_trapped r = true ↔
      ∃ m : ModuleError, r.result = .err (.Module m) ∧
        m.message = some "ContractTrapped" := by
  obtain ⟨res, gas, dep, dbg, ev⟩ := r
  cases res with
  | ok v => simp [is_contract_trapped]
  | err e =>
    cases e with
    | Module m =>
      simp only [is_contract_trapped, beq_iff_eq]
      constructor
      · intro h
        exact ⟨m, rfl, h⟩
      · rintro ⟨m2, hm, hmsg⟩
        simp only [CallResult.err.injEq, DispatchError.Module.injEq] at hm
        exact hm ▸ hmsg
    | Other str => simp [is_contract_trapped]
    | BadOrigin => simp [is_contract_trapped]
    | CannotLookup => simp [is_contract_trapped]

/-- A concrete trapped response. -/
def trapRespW : FullContractResponse :=
  ⟨.err (.Module ⟨8, [], some "ContractTrapped"⟩), 0, 0, [], []⟩

/-- Witness for C6 at a concrete response. -/
theorem is_contract_trapped_iff_witness : is_contract_trapped trapRespW = true :=
  (is_contract_trapped_iff trapRespW).mpr
    ⟨⟨8, [], some "ContractTrapped"⟩, rfl, rfl⟩

theorem invariant_calls_ok_iff {S : Type} (bare : BareCall S)
    (bm : BugManager S) (origin : Nat) :
    ∀ (l : List Selector) (s : S),
      (invariant_calls bare bm origin l s).1 = .ok ↔
        ∀ p ∈ (invariant_calls bare bm origin l s).2.1,
          p.2.result.is_err = false := by
  intro l
  induction l with
  | nil => intro s; simp [invariant_calls]
  | cons inv rest ih =>
    intro s
    cases hc : (ContractBridge.call bare bm.contract_bridge s inv origin
        0).1.result.is_err with
    | true => simp [invariant_calls, hc]
    | false => simp [invariant_calls, hc, ih]

theorem invariant_calls_selectors {S : Type} (bare : BareCall S)
    (bm : BugManager S) (origin : Nat) :
    ∀ (l : List Selector) (s : S),
      ((invariant_calls bare bm origin l s).2.1).map Prod.fst =
        l.take ((invariant_calls bare bm origin l s).2.1).length := by
  intro l
  induction l with
  | nil => intro s; simp [invariant_calls]
  | cons inv rest ih =>
    intro s
    cases hc : (ContractBridge.call bare bm.contract_bridge s inv origin
        0).1.result.is_err with
    | true => simp [invariant_calls, hc]
    | false => simp [invariant_calls, hc, ih]

theorem invariant_calls_err {S : Type} (bare : BareCall S)
    (bm : BugManager S) (origin : Nat) :
    ∀ (l : List Selector) (s : S) (inv : Selector)
      (r : FullContractResponse),
      (invariant_calls bare bm origin l s).1 = .err (inv, r) →
        r.result.is_err = true ∧
        ∃ pre, (invariant_calls bare bm origin l s).2.1 = pre ++ [(inv, r)] ∧
          ∀ p ∈ pre, p.2.result.is_err = false := by
  intro l
  induction l with
  | nil => intro s inv r h; simp [invariant_calls] at h
  | cons inv0 rest ih =>
    intro s inv r h
    cases hc : (ContractBridge.call bare bm.contract_bridge s inv0 origin
        0).1.result.is_err with
    | true =>
      simp only [invariant_calls, hc, if_true] at h ⊢
      cases h
      exact ⟨hc, [], by simp, by simp⟩
    | false =>
      simp only [invariant_calls, hc, Bool.false_eq_true, if_false] at h ⊢
      obtain ⟨herr, pre, htr, hpre⟩ := ih (ContractBridge.call bare
        bm.contract_bridge s inv0 origin 0).2 inv r h
      refine ⟨herr, (inv0, (ContractBridge.call bare bm.contract_bridge s
        inv0 origin 0).1) :: pre, by simp [htr], ?_⟩
      intro p hp
      rcases List.mem_cons.mp hp with hp0 | hp1
      · rw [hp0]
        exact hc
      · exact hpre p hp1

theorem invariant_calls_value_zero {S : Type} (bare : BareCall S)
    (bm : BugManager S) (origin : Nat) :
    ∀ (l : List Selector) (s : S) (p : Selector × FullContractResponse),
      p ∈ (invariant_calls bare bm origin l s).2.1 →
        ∃ st, p.2 =
          (ContractBridge.call bare bm.contract_bridge st p.1 origin 0).1 := by
  intro l
  induction l with
  | nil => intro s p hp; simp [invariant_calls] at hp
  | cons inv0 rest ih =>
    intro s p hp
    cases hc : (ContractBridge.call bare bm.contract_bridge s inv0 origin
        0).1.result.is_err with
    | true =>
      simp only [invariant_calls, hc, if_true, List.mem_singleton] at hp
      exact ⟨s, by rw [hp]⟩
    | false =>
      simp only [invariant_calls, hc, Bool.false_eq_true, if_false,
        List.mem_cons] at hp
      rcases hp with hp0 | hp1
      · exact ⟨s, by rw [hp0]⟩
      · exact ih _ p hp1

/-- C5: for every origin, `are_invariants_passing(origin)` calls each
invariant selector with transferred value 0 from that origin (fourth
conjunct, plus the second: the calls follow `invariant_selectors` in
order), returns `Err` carrying the first invariant whose bridge call
result is a dispatch-level `Err` (third conjunct: the erring call ends the
trace and everything before it passed — an `Ok` result, even one whose
return data encodes a contract-level error, never counts as a failure
since only `Result::is_err` is consulted), and returns `Ok(())` iff no
performed invariant call's result is `Err` (first conjunct). -/
theorem are_invariants_passing_spec {S : Type} (bare : BareCall S)
    (bm : BugManager S) (origin : Nat) (s : S) :
    ((are_invariants_passing bare bm origin s).1 = .ok ↔
        ∀ p ∈ (are_invariants_passing bare bm origin s).2.1,
          p.2.result.is_err = false) ∧
    ((are_invariants_passing bare bm origin s).2.1).map Prod.fst =
        bm.invariant_selectors.take
          ((are_invariants_passing bare bm origin s).2.1).length ∧
    (∀ inv r, (are_invariants_passing bare bm origin s).1 = .err (inv, r) →
        r.result.is_err = true ∧
        ∃ pre, (are_invariants_passing bare bm origin s).2.1 =
            pre ++ [(inv, r)] ∧ ∀ p ∈ pre, p.2.result.is_err = false) ∧
    (∀ p ∈ (are_invariants_passing bare bm origin s).2.1,
        ∃ st, p.2 =
          (ContractBridge.call bare bm.contract_bridge st p.1 origin 0).1) :=
  ⟨invariant_calls_ok_iff bare bm origin bm.invariant_selectors s,
   invariant_calls_selectors bare bm origin bm.invariant_selectors s,
   invariant_calls_err bare bm origin bm.invariant_selectors s,
   invariant_calls_value_zero bare bm origin bm.invariant_selectors s⟩

/-- A concrete `bare_call` semantics over `Nat` storage: the payload
`[9,9,9,9]` dispatches to an error, everything else succeeds; each call
bumps the storage. -/
def bareW : BareCall Nat := fun s _ _ _ payload =>
  (if payload = [9, 9, 9, 9] then ⟨.err (.Other "boom"), 0, 0, [], []⟩
   else ⟨.ok ⟨0, []⟩, 0, 0, [], []⟩, s + 1)

/-- The response `bareW` gives to the payload `[9,9,9,9]`. -/
def respBoomW : FullContractResponse := ⟨.err (.Other "boom"), 0, 0, [], []⟩

/-- A concrete bridge over `Nat` storage. -/
def bridgeW : ContractBridge Nat := ⟨0, 7, ""⟩

/-- A concrete bug manager: two invariants, the second of which fails
under `bareW`. -/
def bmW : BugManager Nat := ⟨bridgeW, [[1, 2, 3, 4], [9, 9, 9, 9]]⟩

/-- Witness for C5: at the concrete manager, the failing run is pinned to
the first erring invariant with everything before it passing. -/
theorem are_invariants_passing_spec_witness :
    ∃ pre, (are_invariants_passing bareW bmW 5 0).2.1 =
        pre ++ [([9, 9, 9, 9], respBoomW)] ∧
      ∀ p ∈ pre, p.2.result.is_err = false :=
  ((are_invariants_passing_spec bareW bmW 5 0).2.2.1 [9, 9, 9, 9] respBoomW
    (by decide)).2

theorem execute_messages_go_value {S : Type} (bare : BareCall S)
    (client : Fuzzer S) (origin : Nat) :
    ∀ (msgs : List Message) (s : S) (i : Nat) (m : Message),
      msgs[i]? = some m →
      ∃ st, (execute_messages_go bare client origin msgs s).1[i]? =
        some (ContractBridge.call bare client.setup st m.payload origin
          (if m.is_payable then m.value_token else 0)).1 := by
  intro msgs
  induction msgs with
  | nil => intro s i m h; simp at h
  | cons m0 rest ih =>
    intro s i m h
    cases i with
    | zero =>
      simp only [List.getElem?_cons_zero, Option.some.injEq] at h
      subst h
      exact ⟨s, by simp [execute_messages_go]⟩
    | succ i =>
      simp only [List.getElem?_cons_succ] at h
      obtain ⟨st, hst⟩ := ih _ i m h
      exact ⟨st, by simpa [execute_messages_go] using hst⟩

/-- C8: for every message executed in a sequence, the value transferred to
the contract call equals the message's decoded `value_token` when its
`is_payable` flag is true, and `0` when it is false: the i-th response of
`execute_messages` is the bridge call on the i-th decoded message with
exactly that transfer value (at the externalities state reached after the
previous calls). -/
theorem execute_messages_payable_value {S : Type} (bare : BareCall S)
    (client : Fuzzer S) (decoded_msgs : OneInput) (chain : S) (i : Nat)
    (m : Message) (h : decoded_msgs.messages[i]? = some m) :
    ∃ st, (execute_messages bare client decoded_msgs chain).1[i]? =
      some (ContractBridge.call bare client.setup st m.payload
        decoded_msgs.origin (if m.is_payable then m.value_token else 0)).1 :=
  execute_messages_go_value bare client decoded_msgs.origin
    decoded_msgs.messages chain i m h

/-- A concrete fuzzer over `Nat` storage. -/
def fuzzerW : Fuzzer Nat := ⟨bridgeW⟩

/-- A payable message carrying value 42. -/
def msgPayW : Message := ⟨[1, 2, 3, 4, 7], true, 42, 3⟩

/-- A non-payable message carrying (ignored) value 42. -/
def msgNoPayW : Message := ⟨[5, 6, 7, 8], false, 42, 3⟩

/-- A concrete decoded input with one payable and one non-payable
message. -/
def decodedW : OneInput := ⟨[msgPayW, msgNoPayW], 3⟩

/-- Witness for C8 at the non-payable message of the concrete input. -/
theorem execute_messages_payable_value_witness :
    ∃ st, (execute_messages bareW fuzzerW decodedW 0).1[1]? =
      some (ContractBridge.call bareW fuzzerW.setup st msgNoPayW.payload
        decodedW.origin
        (if msgNoPayW.is_payable then msgNoPayW.value_token else 0)).1 :=
  execute_messages_payable_value bareW fuzzerW decodedW 0 1 msgNoPayW
    (by decide)

theorem should_stop_now_iff {S : Type} (bm : BugManager S)
    (decoded_msgs : OneInput) :
    should_stop_now bm decoded_msgs = true ↔
      decoded_msgs.messages = [] ∨
        ∃ m ∈ decoded_msgs.messages, 4 ≤ m.payload.length ∧
          m.payload.take 4 ∈ bm.invariant_selectors := by
  unfold should_stop_now BugManager.contains_selector
  rw [Bool.or_eq_true, List.isEmpty_iff, List.any_eq_true]
  constructor
  · rintro (h | ⟨m, hm, hif⟩)
    · exact Or.inl h
    · refine Or.inr ⟨m, hm, ?_⟩
      by_cases hlen : 4 ≤ m.payload.length
      · rw [if_pos hlen] at hif
        exact ⟨hlen, (List.elem_iff).mp hif⟩
      · rw [if_neg hlen] at hif
        exact absurd hif (by simp)
  · rintro (h | ⟨m, hm, hlen, hmem⟩)
    · exact Or.inl h
    · refine Or.inr ⟨m, hm, ?_⟩
      rw [if_pos hlen]
      exact List.elem_iff.mpr hmem

/-- C4: for every input whose decoded message list is empty, or in which
some message's selector (its 4-byte payload head) equals an invariant
selector, the harness returns early: no contract call is executed (no
responses), no trap or invariant check runs (no finding, empty invariant
trace), and the coverage file is unchanged. -/
theorem harness_early_exit {S : Type} (bare : BareCall S)
    (set_timestamp : S → S) (parse_input : List Byte → OneInput)
    (client : Fuzzer S) (bug_manager : BugManager S) (cov_file : CovFile)
    (input : List Byte)
    (h : (parse_input input).messages = [] ∨
        ∃ m ∈ (parse_input input).messages, 4 ≤ m.payload.length ∧
          m.payload.take 4 ∈ bug_manager.invariant_selectors) :
    harness bare set_timestamp parse_input client bug_manager cov_file
        input =
      { responses := []
        invariant_trace := []
        finding := none
        cov_file := cov_file
        chain := client.setup.genesis } := by
  have hs : should_stop_now bug_manager (parse_input input) = true :=
    (should_stop_now_iff bug_manager (parse_input input)).mpr h
  unfold harness
  rw [if_pos hs]

/-- The decoder of the spec's scenario 6 restricted to what C4 needs: an
input shorter than 4 bytes decodes to an empty `OneInput`, otherwise to a
single message whose payload is the whole input. -/
def parseShortW : List Byte → OneInput := fun input =>
  if input.length < 4 then ⟨[], input.headD 0⟩
  else ⟨[⟨input, false, 0, input.headD 0⟩], input.headD 0⟩

/-- Witness for C4: the spec's scenario-6 input `[0x00, 0x01]` decodes
empty and the harness is a no-op on it. -/
theorem harness_early_exit_witness :
    harness bareW id parseShortW fuzzerW bmW [[[3]]] [0, 1] =
      { responses := []
        invariant_trace := []
        finding := none
        cov_file := [[[3]]]
        chain := fuzzerW.setup.genesis } :=
  harness_early_exit bareW id parseShortW fuzzerW bmW [[[3]]] [0, 1]
    (Or.inl (by decide))

theorem harness_cov_file_irrelevant {S : Type} (bare : BareCall S)
    (set_timestamp : S → S) (parse_input : List Byte → OneInput)
    (client : Fuzzer S) (bug_manager : BugManager S)
    (cov1 cov2 : CovFile) (input : List Byte) :
    (harness bare set_timestamp parse_input client bug_manager cov1
        input).responses =
      (harness bare set_timestamp parse_input client bug_manager cov2
        input).responses ∧
    (harness bare set_timestamp parse_input client bug_manager cov1
        input).finding =
      (harness bare set_timestamp parse_input client bug_manager cov2
        input).finding := by
  unfold harness
  by_cases h : should_stop_now bug_manager (parse_input input) = true
  · rw [if_pos h, if_pos h]
    exact ⟨rfl, rfl⟩
  · rw [if_neg h, if_neg h]
    exact ⟨rfl, rfl⟩

theorem fuzz_iterations_single {S : Type} (bare : BareCall S)
    (set_timestamp : S → S) (parse_input : List Byte → OneInput)
    (client : Fuzzer S) (bug_manager : BugManager S) (cov_file : CovFile)
    (b : List Byte) :
    fuzz_iterations bare set_timestamp parse_input client bug_manager
        cov_file [b] =
      [harness bare set_timestamp parse_input client bug_manager cov_file
        b] := by
  unfold fuzz_iterations
  by_cases h : (harness bare set_timestamp parse_input client bug_manager
      cov_file b).finding.isSome = true
  · rw [if_pos h]
  · rw [if_neg h]
    rfl

/-- C1: the genesis snapshot held by the `ContractBridge` is never mutated
in place — each iteration builds its externalities from a clone of
`genesis` and each call consumes a clone of the bridge, which the
embedding renders as `harness` being a pure function of the (unchanged)
fuzzer value that the driver loop re-clones every iteration. Consequently,
if input A's iteration terminates without a finding, running A's harness
iteration and then B's produces for B exactly the responses of running B
alone (the only state carried between iterations, the coverage file, does
not influence responses). -/
theorem per_iteration_isolation {S : Type} (bare : BareCall S)
    (set_timestamp : S → S) (parse_input : List Byte → OneInput)
    (client : Fuzzer S) (bug_manager : BugManager S) (cov_file : CovFile)
    (A B : List Byte)
    (hA : (harness bare set_timestamp parse_input client bug_manager
      cov_file A).finding = none) :
    ((fuzz_iterations bare set_timestamp parse_input client bug_manager
        cov_file [A, B]).map (fun o => o.responses))[1]? =
      ((fuzz_iterations bare set_timestamp parse_input client bug_manager
        cov_file [B]).map (fun o => o.responses))[0]? := by
  have hA2 : (harness bare set_timestamp parse_input client bug_manager
      cov_file A).finding.isSome = false := by rw [hA]; rfl
  conv_lhs => rw [fuzz_iterations]
  rw [if_neg (by rw [hA2]; simp)]
  rw [fuzz_iterations_single, fuzz_iterations_single]
  simp only [List.map_cons, List.map_nil, List.getElem?_cons_succ,
    List.getElem?_cons_zero]
  exact congrArg some
    (harness_cov_file_irrelevant bare set_timestamp parse_input client
      bug_manager _ cov_file B).1

/-- A `bare_call` semantics that always succeeds. -/
def bareOkW : BareCall Nat := fun s _ _ _ _ => (⟨.ok ⟨0, []⟩, 0, 0, [], []⟩, s + 1)

/-- Witness for C1: with an always-passing runtime, the second iteration
of `[A, B]` yields the same responses as running `B` alone. -/
theorem per_iteration_isolation_witness :
    ((fuzz_iterations bareOkW id parseShortW fuzzerW bmW [] [[1, 2, 3, 4],
        [5, 6, 7, 8]]).map (fun o => o.responses))[1]? =
      ((fuzz_iterations bareOkW id parseShortW fuzzerW bmW []
        [[5, 6, 7, 8]]).map (fun o => o.responses))[0]? :=
  per_iteration_isolation bareOkW id parseShortW fuzzerW bmW []
    [1, 2, 3, 4] [5, 6, 7, 8] (by decide)

/-- C7 (amended): when some response of an executed sequence is classified
as trapped, `check_invariants` hands `display_trap` the first trapped
response together with the *first* message of the decoded sequence
(`messages[0]`, not necessarily the message whose call produced the
trap), so the trap report pretty-prints that first message and the
first trapped response's coverage-stripped debug stacktrace, and the
process terminates with the trap finding before any invariant call
runs. -/
theorem check_invariants_trap_report {S : Type} (bare : BareCall S)
    (bm : BugManager S) (all_msg_responses : List FullContractResponse)
    (decoded_msgs : OneInput) (s : S) (r : FullContractResponse)
    (rest : List FullContractResponse)
    (h : all_msg_responses.filter (fun x => is_contract_trapped x) =
      r :: rest) :
    check_invariants bare bm all_msg_responses decoded_msgs s =
      (some (.trap
        { stacktrace := remove_cov_from_trace r.debug_message
          message := decoded_msgs.messages.headD default
          printed := { messages := [decoded_msgs.messages.headD default]
                       origin := (decoded_msgs.messages.headD default).origin } }),
       [], s) := by
  unfold check_invariants
  rw [h]
  rfl

/-- First message of the C7 counterexample input. -/
def m0W : Message := ⟨[1], false, 0, 2⟩

/-- Second message of the C7 counterexample input; its call produces the
trapped response. -/
def m1W : Message := ⟨[2], false, 0, 2⟩

/-- The C7 counterexample decoded input. -/
def decodedTrapW : OneInput := ⟨[m0W, m1W], 2⟩

/-- A successful response. -/
def okRespW : FullContractResponse := ⟨.ok ⟨0, []⟩, 0, 0, [], []⟩

/-- The C7 counterexample response sequence: the trap occurs on the second
call. -/
def respsTrapW : List FullContractResponse := [okRespW, trapRespW]

/-- C7 counterexample: in a two-message sequence whose second call traps,
the rendered trap report pretty-prints the first message `m0W`, which is
not the message `m1W` whose call produced the trapped response — refuting
the claim that the report prints the trapping message. -/
theorem check_invariants_trap_report_counterexample :
    is_contract_trapped okRespW = false ∧
    is_contract_trapped trapRespW = true ∧
    respsTrapW[1]? = some trapRespW ∧
    decodedTrapW.messages[1]? = some m1W ∧
    (check_invariants bareW bmW respsTrapW decodedTrapW 0).1 =
      some (.trap (display_trap m0W trapRespW)) ∧
    (display_trap m0W trapRespW).message = m0W ∧
    m0W ≠ m1W := by
  decide

/-- Witness for C7 (amended) at the counterexample sequence. -/
theorem check_invariants_trap_report_witness :
    check_invariants bareW bmW respsTrapW decodedTrapW 0 =
      (some (.trap
        { stacktrace := remove_cov_from_trace trapRespW.debug_message
          message := decodedTrapW.messages.headD default
          printed := { messages := [decodedTrapW.messages.headD default]
                       origin := (decodedTrapW.messages.headD default).origin } }),
       [], 0) :=
  check_invariants_trap_report bareW bmW respsTrapW decodedTrapW 0
    trapRespW [] (by decide)

theorem visit_block_length :
    ∀ b : Block, (visit_block b).toList.length = 2 * b.toList.length
  | .nil => rfl
  | .cons s rest => by
    simp only [visit_block, Block.toList, List.length_cons,
      visit_block_length rest]
    omega

theorem visit_block_get_beacon :
    ∀ (b : Block) (i : Nat),
      (visit_block b).toList[2 * i]? =
        (b.toList[i]?).map (fun s => Stmt.beacon 0 s.line_of)
  | .nil, i => by simp [visit_block, Block.toList]
  | .cons s rest, 0 => by simp [visit_block, Block.toList]
  | .cons s rest, (i + 1) => by
    have ih := visit_block_get_beacon rest i
    have h2 : 2 * (i + 1) = 2 * i + 1 + 1 := by ring
    simp only [visit_block, Block.toList, h2, List.getElem?_cons_succ]
    exact ih

theorem visit_block_get_orig :
    ∀ (b : Block) (i : Nat),
      (visit_block b).toList[2 * i + 1]? = (b.toList[i]?).map visit_stmt
  | .nil, i => by simp [visit_block, Block.toList]
  | .cons s rest, 0 => by simp [visit_block, Block.toList]
  | .cons s rest, (i + 1) => by
    have ih := visit_block_get_orig rest i
    have h2 : 2 * (i + 1) + 1 = 2 * i + 1 + 1 + 1 := by ring
    simp only [visit_block, Block.toList, h2, List.getElem?_cons_succ]
    exact ih

/-- C3: for every block, the instrumented block has twice as many
statements; at each even position `2i` sits exactly one synthetic beacon
whose argument literal is the source line of the `i`-th original
statement, and at the following odd position `2i+1` sits that original
statement itself (with the same rule applied recursively to its nested
blocks, per the last two conjuncts), so apart from the inserted beacons
the original statements are preserved in order. -/
theorem visit_block_instrumentation (b : Block) (i : Nat) :
    (visit_block b).toList.length = 2 * b.toList.length ∧
    (visit_block b).toList[2 * i]? =
      (b.toList[i]?).map (fun s => Stmt.beacon 0 s.line_of) ∧
    (visit_block b).toList[2 * i + 1]? = (b.toList[i]?).map visit_stmt ∧
    (∀ l body, visit_stmt (Stmt.blockStmt l body) =
        Stmt.blockStmt l (visit_block body)) ∧
    (∀ l tb eb, visit_stmt (Stmt.ifElse l tb eb) =
        Stmt.ifElse l (visit_block tb) (visit_block eb)) :=
  ⟨visit_block_length b, visit_block_get_beacon b i,
   visit_block_get_orig b i, fun _ _ => rfl, fun _ _ _ => rfl⟩

/-- A one-statement source file: `fn main() { let x = 1; }`. -/
def sampleSrcW : SrcFile := ⟨[⟨"main", .cons (.simple 1 "let x = 1;") .nil⟩]⟩

/-- The engine pointed at the original contract tree. -/
def engineW : InstrumenterEngine := ⟨"mycontract"⟩

/-- A filesystem whose contract tree holds the *instrumented* rendering of
`sampleSrcW` as its `lib.rs`. -/
def worldInstrW : World :=
  ⟨[("mycontract", ⟨[("lib.rs", render_file (visit_file sampleSrcW))]⟩)]⟩

/-- The external `syn` parser pinned to the concrete run: parsing the
instrumented rendering yields the instrumented AST. -/
def parseInstrW : String → SrcFile := fun _ => visit_file sampleSrcW

/-- C2 (evidence of the code bug): the instrumenter's own output — which
renders each beacon as `ink::env::debug_println!("COV={}", n);`, the
number outside the string literal — is *not* matched by the
`already_instrumented` regex `\bink::env::debug_println!\("COV=\d+"\)`,
which expects the digits inside the literal (second conjunct: the regex
does accept that one-argument literal form, exactly as the repository's
unit tests exercise it). Consequently a second `instrument` run on the
instrumented tree does not refuse: it returns `Ok` and writes a
doubly-instrumented `lib.rs` into the fresh fork. -/
theorem already_instrumented_misses_own_output :
    already_instrumented (render_file (visit_file sampleSrcW)) = false ∧
    already_instrumented "ink::env::debug_println!(\x22COV=123\x22);" = true ∧
    (InstrumenterEngine.instrument parseInstrW "abcde" engineW
        worldInstrW).1 = .ok ⟨fork_dir_name "abcde"⟩ ∧
    (((InstrumenterEngine.instrument parseInstrW "abcde" engineW
        worldInstrW).2.2.lookup (fork_dir_name "abcde")).bind
      (fun t => t.read "lib.rs")) =
      some (render_file (visit_file (visit_file sampleSrcW))) :=
  ⟨rfl, rfl, rfl, rfl⟩

theorem lookup_setDir (w : World) (d : String) (t : FileTree) :
    (w.setDir d t).lookup d = some t := by
  simp [World.setDir, World.lookup, List.find?]

/-- C10: `instrument` is not atomic on refusal — called on a tree whose
`lib.rs` is already instrumented, it returns the refusal error only after
the fresh `/tmp/ink_fuzzed_<suffix>` fork has been created and fully
populated with the source tree and the engine's `contract_dir` has been
reassigned to that fork, so the error path leaves both the filesystem and
the engine modified. -/
theorem instrument_not_atomic_on_refusal (parse_file : String → SrcFile)
    (suffix : String) (e : InstrumenterEngine) (w : World) (tree : FileTree)
    (code : String) (hdir : w.lookup e.contract_dir = some tree)
    (hread : tree.read "lib.rs" = some code)
    (hinstr : already_instrumented code = true) :
    InstrumenterEngine.instrument parse_file suffix e w =
      (.error "🙅 Code already instrumented", ⟨fork_dir_name suffix⟩,
        w.setDir (fork_dir_name suffix) tree) := by
  have hfork : InstrumenterEngine.fork e suffix w =
      some (fork_dir_name suffix, w.setDir (fork_dir_name suffix) tree) := by
    unfold InstrumenterEngine.fork
    rw [hdir]
  unfold InstrumenterEngine.instrument
  rw [hfork]
  simp only [lookup_setDir, Option.some_bind, hread, hinstr, if_true]

/-- A contract tree whose `lib.rs` carries the one-argument literal beacon
form that the regex does recognize. -/
def treeRefusalW : FileTree :=
  ⟨[("lib.rs",
     "fn main() \x7b ink::env::debug_println!(\x22COV=123\x22); \x7d")]⟩

/-- The filesystem for the C10 witness. -/
def worldRefusalW : World := ⟨[("mycontract", treeRefusalW)]⟩

/-- Witness for C10 at the concrete already-instrumented tree. -/
theorem instrument_not_atomic_on_refusal_witness :
    InstrumenterEngine.instrument parseInstrW "xyzzy" engineW worldRefusalW =
      (.error "🙅 Code already instrumented", ⟨fork_dir_name "xyzzy"⟩,
        worldRefusalW.setDir (fork_dir_name "xyzzy") treeRefusalW) :=
  instrument_not_atomic_on_refusal parseInstrW "xyzzy" engineW worldRefusalW
    treeRefusalW
    "fn main() \x7b ink::env::debug_println!(\x22COV=123\x22); \x7d"
    rfl rfl rfl

/-- A line the dictionary consumer ignores: one starting with `#` (the
header declares this framing in `fuzz.rs` lines 231–234). -/
def is_comment_line (l : String) : Bool :=
  match l.toList with
  | c :: _ => c == '#'
  | [] => false

theorem build_corpus_get (selectors : List Selector) (i : Nat)
    (s : Selector) (h : selectors[i]? = some s) :
    (build_corpus_and_dict selectors).1[i]? =
      some ("selector_" ++ toString i ++ ".bin", s) := by
  unfold build_corpus_and_dict
  rw [List.getElem?_map, List.getElem?_enum, h]
  rfl

/-- C9: initialization writes exactly one corpus seed per fuzzable
selector (all declared selectors minus the invariants): the seed list has
one entry per fuzzable selector (first conjunct), the `i`-th seed is the
file `selector_i.bin` holding exactly the 4 selector bytes, never an
invariant selector (second conjunct); the dictionary's first non-comment
line is `delimiter="********"` (third conjunct), its lines after the
3-line header are exactly one entry per fuzzable selector in order
(fourth conjunct), each rendered `"\xHH\xHH\xHH\xHH"` with two uppercase
hex digits per byte (fifth conjunct). -/
theorem init_fuzzer_files_spec (selectors invariants : List Selector)
    (hlen : ∀ s ∈ selectors, s.length = 4) :
    (init_fuzzer_files selectors invariants).1.length =
      (selectors_without_invariants selectors invariants).length ∧
    (∀ (i : Nat) (s : Selector),
        (selectors_without_invariants selectors invariants)[i]? = some s →
      (init_fuzzer_files selectors invariants).1[i]? =
        some ("selector_" ++ toString i ++ ".bin", s) ∧
      s.length = 4 ∧ s ∉ invariants) ∧
    (init_fuzzer_files selectors invariants).2.find?
        (fun l => !(is_comment_line l)) =
      some "delimiter=\x22********\x22" ∧
    (init_fuzzer_files selectors invariants).2.drop 3 =
      (selectors_without_invariants selectors invariants).map
        write_dict_entry ∧
    (∀ a b c d : Byte, write_dict_entry [a, b, c, d] =
      "\x22" ++ ("" ++ byteHexU a ++ byteHexU b ++ byteHexU c ++
        byteHexU d) ++ "\x22") := by
  refine ⟨?_, ?_, ?_, ?_, fun a b c d => rfl⟩
  · simp [init_fuzzer_files, build_corpus_and_dict]
  · intro i s h
    refine ⟨build_corpus_get _ i s h, ?_, ?_⟩
    · have hmem : s ∈ selectors_without_invariants selectors invariants :=
        List.getElem?_mem h
      exact hlen s (List.mem_of_mem_filter hmem)
    · have hmem : s ∈ selectors_without_invariants selectors invariants :=
        List.getElem?_mem h
      have hpred := (List.mem_filter.mp hmem).2
      intro hinv
      rw [Bool.not_eq_true', ← Bool.not_eq_true] at hpred
      exact hpred (List.elem_iff.mpr hinv)
  · rfl
  · rfl

/-- Two concrete declared selectors, the second being an invariant. -/
def selW : List Selector := [[155, 174, 157, 94], [1, 2, 3, 4]]

/-- The concrete invariant selectors. -/
def invW : List Selector := [[1, 2, 3, 4]]

/-- Witness for C9: with the concrete metadata, the single corpus seed is
the fuzzable selector's 4 bytes and the dictionary's first non-comment
line declares the delimiter. -/
theorem init_fuzzer_files_spec_witness :
    (init_fuzzer_files selW invW).1[0]? =
      some ("selector_" ++ toString 0 ++ ".bin", [155, 174, 157, 94]) ∧
    (init_fuzzer_files selW invW).2.find? (fun l => !(is_comment_line l)) =
      some "delimiter=\x22********\x22" := by
  have h := init_fuzzer_files_spec selW invW (by decide)
  exact ⟨(h.2.1 0 [155, 174, 157, 94] (by decide)).1, h.2.2.1⟩

end Phink
